import Mathlib

/-!
Shallow embedding of the user-account service in `src/04-web-server/src`
(models.rs, repository.rs, auth.rs, handlers.rs).

Modelling conventions:
* `Uuid` is modelled as `Nat`; `Uuid::parse_str` on the decimal rendering is
  modelled by `String.toNat?` (ids round-trip through `toString`).
* `DateTime<Utc>` timestamps are modelled as `Int` (chronological order only).
* The in-memory `HashMap<Uuid, User>` is modelled as an association list of
  users keyed by `User.id`; `map.insert` replaces the entry with the same id.
* Rust byte-length `s.len()` is `String.utf8ByteSize`; `s.chars()` is
  `String.data`.
* Effectful inputs (bcrypt hash, `to_lowercase`, fresh uuids, clock) are
  passed as explicit function/value parameters.
-/

set_option maxHeartbeats 1000000

namespace WebServer04

/-- models.rs `UserStatus`: Active | Suspended { reason, until } |
PendingVerification { code }. -/
inductive UserStatus where
  | Active : UserStatus
  | Suspended (reason : String) (untilTime : Option Int) : UserStatus
  | PendingVerification (code : String) : UserStatus
deriving DecidableEq

/-- models.rs `User`. -/
structure User where
  id : Nat
  email : String
  password_hash : String
  created_at : Int
  status : UserStatus
deriving DecidableEq

/-- models.rs `AppError` (thiserror enum). -/
inductive AppError where
  | Validation (msg : String) : AppError
  | NotFound (msg : String) : AppError
  | Conflict (msg : String) : AppError
  | Unauthorized (msg : String) : AppError
  | Forbidden (msg : String) : AppError
  | Jwt (msg : String) : AppError
  | Bcrypt (msg : String) : AppError
  | Repo (msg : String) : AppError
  | Parse (msg : String) : AppError
  | Unknown (msg : String) : AppError
deriving DecidableEq

/-- The `Display` rendering produced by the `#[error(...)]` attributes on
`AppError` in models.rs, used by `e.to_string()` in `batch_create_users`. -/
def errString : AppError → String
  | .Validation m => "validation error: " ++ m
  | .NotFound m => "not found: " ++ m
  | .Conflict m => "conflict: " ++ m
  | .Unauthorized m => "unauthorized: " ++ m
  | .Forbidden m => "forbidden: " ++ m
  | .Jwt m => "jwt error: " ++ m
  | .Bcrypt m => "password error: " ++ m
  | .Repo m => "repository error: " ++ m
  | .Parse m => "parse error: " ++ m
  | .Unknown m => "unknown error: " ++ m

/-- Rust `char::is_ascii_alphabetic`. -/
def isAsciiAlphabetic (c : Char) : Bool :=
  (65 ≤ c.toNat && c.toNat ≤ 90) || (97 ≤ c.toNat && c.toNat ≤ 122)

/-- Rust `char::is_ascii_digit`. -/
def isAsciiDigit (c : Char) : Bool :=
  48 ≤ c.toNat && c.toNat ≤ 57

/-- Rust `u8::to_ascii_lowercase` lifted to chars (only A-Z are mapped;
on UTF-8 this byte map touches exactly the ASCII uppercase letters). -/
def asciiLowerChar (c : Char) : Char :=
  if 65 ≤ c.toNat && c.toNat ≤ 90 then Char.ofNat (c.toNat + 32) else c

/-- ASCII lowercasing of a whole string (the `lower()` used to model
case-insensitive email comparison; coincides with Rust/SQL lowercasing on
ASCII email addresses). -/
def asciiLowerString (s : String) : String :=
  ⟨s.data.map asciiLowerChar⟩

/-- Rust `str::eq_ignore_ascii_case` (byte-wise ASCII-case-folded equality). -/
def eqIgnoreAsciiCase (a b : String) : Bool :=
  decide (a.data.map asciiLowerChar = b.data.map asciiLowerChar)

/-- models.rs `User::validate_email`: contains '@' and '.', byte length
in [3, 254]. -/
def validate_email (email : String) : Except AppError Unit :=
  let has_at := email.data.contains '@'
  let has_dot := email.data.contains '.'
  let ok_len := email.utf8ByteSize ≤ 254 && 3 ≤ email.utf8ByteSize
  if has_at && has_dot && ok_len then .ok ()
  else .error (.Validation "invalid email format")

/-- models.rs `User::validate_password_policy`: byte length ≥ 8, at least
one ASCII letter and one ASCII digit among the chars. -/
def validate_password_policy (password : String) : Except AppError Unit :=
  if password.utf8ByteSize < 8 then
    .error (.Validation "password too short (min 8)")
  else
    let has_letter := password.data.any isAsciiAlphabetic
    let has_digit := password.data.any isAsciiDigit
    if has_letter && has_digit then .ok ()
    else .error (.Validation "password must include at least one letter and one number")

/-- repository.rs `ListOptions` (u32 fields modelled as `Nat`). -/
structure ListOptions where
  page : Nat
  per_page : Nat
deriving DecidableEq

/-- repository.rs `ListOptions::clamp`. -/
def ListOptions.clamp (o : ListOptions) (max_per_page : Nat) : ListOptions :=
  { page := max o.page 1, per_page := max (min o.per_page max_per_page) 1 }

/-- The in-memory store: the value set of the `HashMap<Uuid, User>` keyed by
`User.id`. -/
abbrev Store := List User

/-- `map.insert(user.id, user)`: replace the entry with the same id if
present, otherwise add the user. -/
def hmInsert (st : Store) (u : User) : Store :=
  if st.any (fun v => v.id == u.id) then
    st.map (fun v => if v.id == u.id then u else v)
  else st ++ [u]

/-- repository.rs `InMemoryUserRepository::create`: reject when any stored
user's email matches case-insensitively, otherwise insert. -/
def memCreate (st : Store) (u : User) : Except AppError (User × Store) :=
  if st.any (fun v => eqIgnoreAsciiCase v.email u.email) then
    .error (.Conflict "email already exists")
  else .ok (u, hmInsert st u)

/-- repository.rs `InMemoryUserRepository::find_by_id`. -/
def memFindById (st : Store) (id : Nat) : Except AppError User :=
  match st.find? (fun v => v.id == id) with
  | some u => .ok u
  | none => .error (.NotFound "user not found")

/-- repository.rs `InMemoryUserRepository::find_by_email`. -/
def memFindByEmail (st : Store) (email : String) : Except AppError User :=
  match st.find? (fun v => eqIgnoreAsciiCase v.email email) with
  | some u => .ok u
  | none => .error (.NotFound "user not found")

/-- repository.rs `InMemoryUserRepository::update`: `NotFound` when the id is
absent, otherwise insert (replace). Note: no email-uniqueness check. -/
def memUpdate (st : Store) (u : User) : Except AppError (User × Store) :=
  if st.any (fun v => v.id == u.id) then .ok (u, hmInsert st u)
  else .error (.NotFound "user not found")

/-- repository.rs `InMemoryUserRepository::delete`. -/
def memDelete (st : Store) (id : Nat) : Except AppError Store :=
  if st.any (fun v => v.id == id) then .ok (st.filter (fun v => !(v.id == id)))
  else .error (.NotFound "user not found")

/-- Comparison used by `users.sort_by_key(|u| u.created_at)`. -/
def byCreatedAt (a b : User) : Prop := a.created_at ≤ b.created_at

instance : DecidableRel byCreatedAt := fun a b => Int.decLe a.created_at b.created_at

instance : IsTotal User byCreatedAt := ⟨fun a b => Int.le_total a.created_at b.created_at⟩

instance : IsTrans User byCreatedAt := ⟨fun _ _ _ h1 h2 => le_trans h1 h2⟩

/-- `users.sort_by_key(|u| u.created_at)` (a stable sort by `created_at`). -/
def sortUsers (st : Store) : List User :=
  List.insertionSort byCreatedAt st

/-- repository.rs `InMemoryUserRepository::list`: sort by `created_at`,
window `[start, end)` with `start = (page-1)*per_page` (saturating) and
`end = min(start + per_page, total)`; empty slice when `start ≥ end`. -/
def memList (st : Store) (opts : ListOptions) : List User × Nat :=
  let users := sortUsers st
  let total := users.length
  let start := (opts.page - 1) * opts.per_page
  let stop := min (start + opts.per_page) total
  let slice := if start < stop then (users.drop start).take (stop - start) else []
  (slice, total)

/-! ### Postgres backend (repository.rs `PostgresUserRepository`) -/

/-- repository.rs `status_to_text`. -/
def status_to_text : UserStatus → String
  | .Active => "active"
  | .Suspended _ _ => "suspended"
  | .PendingVerification _ => "pending"

/-- repository.rs `text_to_status`. -/
def text_to_status (s : String) : UserStatus :=
  if s = "active" then .Active
  else if s = "suspended" then .Suspended "" none
  else if s = "pending" then .PendingVerification ""
  else .Active

/-- The row a Postgres INSERT/UPDATE RETURNING hands back for user `u` whose
stored `created_at` is `createdAt`: the status payload round-trips through
its TEXT column. -/
def pgRow (u : User) (createdAt : Int) : User :=
  { id := u.id, email := u.email, password_hash := u.password_hash,
    created_at := createdAt, status := text_to_status (status_to_text u.status) }

/-- repository.rs `PostgresUserRepository::create`. The database table is not
under src/ (migrations are absent); its uniqueness constraint is
Modelled from the spec: "a uniqueness violation at the durable layer must be
translated to the same Conflict kind", with case-insensitive email uniqueness
(`lower(email)`) as the unique index. `is_unique_violation` maps to
`Conflict`, any other database error to `Repo` (src lines 47-69). -/
def pgCreate (st : Store) (u : User) : Except AppError (User × Store) :=
  if st.any (fun v => asciiLowerString v.email == asciiLowerString u.email) then
    .error (.Conflict "email already exists")
  else
    let row := pgRow u u.created_at
    .ok (row, st ++ [row])

/-- The `to_string()` of `sqlx::Error::RowNotFound`, produced when
`fetch_one` matches no row. -/
def rowNotFoundMsg : String :=
  "no rows returned by a query that expected to return at least one row"

/-- repository.rs `PostgresUserRepository::update`: UPDATE ... WHERE id=$1
RETURNING, run through `fetch_one`; zero matched rows surface as
`sqlx::Error::RowNotFound`, and the handler maps every error of this query
to `AppError::Repo` (src line 148). `created_at` is not in the SET list, so
the stored value is kept. -/
def pgUpdate (st : Store) (u : User) : Except AppError (User × Store) :=
  match st.find? (fun v => v.id == u.id) with
  | none => .error (.Repo rowNotFoundMsg)
  | some old =>
      let row := pgRow u old.created_at
      .ok (row, st.map (fun v => if v.id == u.id then row else v))

/-! ### Token service (auth.rs `HybridAuthService`) -/

/-- auth.rs `Claims`: { sub, iat, exp, jti }. -/
structure Claims where
  sub : String
  iat : Nat
  exp : Nat
  jti : String
deriving DecidableEq

/-- Model of the HMAC-SHA256 signature over the claim set with a symmetric
key: an abstract checksum; `decodeJwt` accepts exactly the tokens whose
signature field equals `mkSig key claims`. -/
def mkSig (key : Nat) (c : Claims) : Nat :=
  key + 3 * c.iat + 5 * c.exp + 7 * c.sub.length + 11 * c.jti.length

/-- A serialized JWT, abstracted as its claim set plus signature value. -/
structure Token where
  claims : Claims
  sig : Nat
deriving DecidableEq

/-- `jsonwebtoken::decode` with `Validation::new(Algorithm::HS256)`:
signature check, then (when `validate_exp`, which `Validation::new` turns on
with a default `leeway` of 60 seconds) rejection of claims with
`exp < now - leeway`. Subtraction is saturating (`Nat`). -/
def decodeJwt (key : Nat) (validate_exp : Bool) (leeway now : Nat)
    (t : Token) : Except String Claims :=
  if t.sig ≠ mkSig key t.claims then .error "InvalidSignature"
  else if validate_exp && decide (t.claims.exp < now - leeway) then
    .error "ExpiredSignature"
  else .ok t.claims

/-- The Redis revocation whitelist: entries `jti -> expiry instant` written
by `set_ex` (TTL); a key is visible to `exists`/`del` only before its expiry
instant. -/
abbrev RevocationStore := List (String × Nat)

/-- Redis `EXISTS jwt:{jti}` at time `now`. -/
def jtiLive (store : RevocationStore) (now : Nat) (jti : String) : Bool :=
  store.any (fun e => e.1 == jti && decide (now < e.2))

/-- auth.rs `HybridAuthService` state: decoding/encoding key, configured
expiry, optional Redis client (`None` = stateless mode). -/
structure AuthState where
  key : Nat
  expiry_hours : Nat
  redis : Option RevocationStore
deriving DecidableEq

/-- auth.rs `HybridAuthService::validate_token`: decode with
`validate_exp = true` (leeway 60); decode errors become `AppError::Jwt` via
`From<jsonwebtoken::errors::Error>`; with Redis configured, a `jti` absent
from the whitelist fails with `Unauthorized`. -/
def validate_token (a : AuthState) (now : Nat) (t : Token) : Except AppError Claims :=
  match decodeJwt a.key true 60 now t with
  | .error e => .error (.Jwt e)
  | .ok claims =>
      match a.redis with
      | none => .ok claims
      | some store =>
          if jtiLive store now claims.jti then .ok claims
          else .error (.Unauthorized "token revoked or expired")

/-- auth.rs `HybridAuthService::logout`: without Redis, return Ok
immediately; with Redis, decode the token with
`Validation::new(Algorithm::HS256)` (so `validate_exp = true`, leeway 60)
and `DEL` the `jti` key. Returns the resulting auth state. -/
def logout (a : AuthState) (now : Nat) (t : Token) : Except AppError AuthState :=
  match a.redis with
  | none => .ok a
  | some store =>
      match decodeJwt a.key true 60 now t with
      | .error e => .error (.Jwt e)
      | .ok claims =>
          .ok { a with redis := some (store.filter (fun e => !(e.1 == claims.jti))) }

/-- auth.rs `HybridAuthService::generate_token` at time `now`, with the
fresh `jti` supplied by the caller: `iat = now`,
`exp = now + expiry_hours * 3600`, sign `{sub, iat, exp, jti}`, and with
Redis configured whitelist `jti` with TTL `exp - iat`. -/
def generate_token (a : AuthState) (now : Nat) (user_id : Nat) (jti : String) :
    Token × AuthState :=
  let iat := now
  let exp := now + a.expiry_hours * 3600
  let claims : Claims := { sub := toString user_id, iat := iat, exp := exp, jti := jti }
  let tok : Token := { claims := claims, sig := mkSig a.key claims }
  match a.redis with
  | none => (tok, a)
  | some store => (tok, { a with redis := some ((jti, now + (exp - iat)) :: store) })

/-- Model of `Uuid::parse_str` on decimal-rendered ids (ids are modelled as
`Nat`): succeeds exactly on non-empty all-digit subjects. -/
def parseUuid (s : String) : Option Nat :=
  if s.data.isEmpty then none
  else if s.data.all isAsciiDigit then
    some (s.data.foldl (fun n c => n * 10 + (c.toNat - 48)) 0)
  else none

/-- auth.rs `AuthService::user_id_from_token` (default method):
`validate_token` then parse the subject as a uuid, mapping a parse failure
to `AppError::Parse`. -/
def user_id_from_token (a : AuthState) (now : Nat) (t : Token) : Except AppError Nat :=
  match validate_token a now t with
  | .error e => .error e
  | .ok claims =>
      match parseUuid claims.sub with
      | some uid => .ok uid
      | none => .error (.Parse "invalid uuid")

/-- The Authorization header of a request: absent, present but not of the
form `Bearer <token>`, or a bearer token (token strings are abstracted as
structured `Token` values). -/
inductive AuthHeader where
  | missing : AuthHeader
  | malformed (raw : String) : AuthHeader
  | bearer (t : Token) : AuthHeader

/-- auth.rs `bearer_from_headers`: the Authorization value after
`Bearer `, if any. -/
def bearer_from_headers : AuthHeader → Option Token
  | .bearer t => some t
  | _ => none

/-! ### Handlers (handlers.rs) -/

/-- models.rs `RegisterRequest`. -/
structure RegisterRequest where
  email : String
  password : String
deriving DecidableEq

/-- handlers.rs `current_user_from_headers`: bearer extraction (missing
header → `Unauthorized`), then `user_id_from_token`, then the store's
`find_by_id`, each failure propagated unchanged by `?`. -/
def current_user_from_headers (a : AuthState) (st : Store) (now : Nat)
    (h : AuthHeader) : Except AppError User :=
  match bearer_from_headers h with
  | none => .error (.Unauthorized "missing bearer token")
  | some tok =>
      match user_id_from_token a now tok with
      | .error e => .error e
      | .ok uid => memFindById st uid

/-- handlers.rs `register` (against the in-memory store), with the hashing
function, Unicode lowercasing, fresh uuid and clock passed explicitly:
validate email, validate password, lower-case email, hash password,
construct the user with status `PendingVerification { code: "123456" }`
(`generate_demo_verification_code`), then store `create`. -/
def register (lower hashFn : String → String) (st : Store)
    (req : RegisterRequest) (uid : Nat) (t : Int) : Except AppError (User × Store) := do
  _ ← validate_email req.email
  _ ← validate_password_policy req.password
  let email := lower req.email
  let password_hash := hashFn req.password
  let user : User :=
    { id := uid, email := email, password_hash := password_hash,
      created_at := t, status := .PendingVerification "123456" }
  memCreate st user

/-- One item of handlers.rs `batch_create_users` (the body of the spawned
future after its semaphore permit is acquired): validate email and password,
lower-case email, hash password, construct the user with status `Active`,
then store `create`. -/
def batchItem (lower hashFn : String → String) (st : Store)
    (req : RegisterRequest) (uid : Nat) (t : Int) : Except AppError (User × Store) := do
  _ ← validate_email req.email
  _ ← validate_password_policy req.password
  let email := lower req.email
  let password_hash := hashFn req.password
  let user : User :=
    { id := uid, email := email, password_hash := password_hash,
      created_at := t, status := .Active }
  memCreate st user

/-- The `results` vector of `join_all` in `batch_create_users` under the
sequential schedule, threading the store; item `i` gets the fresh uuid `i`.
Returns the position-aligned outcome list and the final store. -/
def runBatchAux (lower hashFn : String → String) (t : Int) :
    Store → Nat → List RegisterRequest → List (Except AppError User) × Store
  | st, _, [] => ([], st)
  | st, i, req :: rest =>
      match batchItem lower hashFn st req i t with
      | .ok (u, st2) =>
          (.ok u :: (runBatchAux lower hashFn t st2 (i + 1) rest).1,
           (runBatchAux lower hashFn t st2 (i + 1) rest).2)
      | .error e =>
          (.error e :: (runBatchAux lower hashFn t st (i + 1) rest).1,
           (runBatchAux lower hashFn t st (i + 1) rest).2)

/-- handlers.rs `batch_create_users`: run all items, then split the results
into the `created` list (in completion-vector order) and the `errors` list
of rendered messages. -/
def batch_create_users (lower hashFn : String → String) (st : Store)
    (reqs : List RegisterRequest) (t : Int) : List User × List String × Store :=
  let results := (runBatchAux lower hashFn t st 0 reqs).1
  (results.filterMap (fun r => match r with | .ok u => some u | .error _ => none),
   results.filterMap (fun r => match r with | .ok _ => none | .error e => some (errString e)),
   (runBatchAux lower hashFn t st 0 reqs).2)

/-! ### Semaphore discipline of `batch_create_users` (handlers.rs 90-104)

`Semaphore::new(batch_limit)` plus one task per input item; each task first
awaits `acquire()`, runs its body while holding the permit, and the permit is
dropped (released) when the future completes, on the Ok path and on every
early-return Err path alike. The interleaving of the tasks is modelled as a
small-step relation. -/

/-- The phase of one batch-item task: not yet admitted, holding a permit
(validation/hashing/create in flight), or completed (with success flag). -/
inductive TaskPhase where
  | pending : TaskPhase
  | holding : TaskPhase
  | finished (ok : Bool) : TaskPhase
deriving DecidableEq

/-- Scheduler state: free permits of the semaphore plus every task's phase. -/
structure SemState where
  permits : Nat
  tasks : List TaskPhase
deriving DecidableEq

/-- Number of registrations in flight (tasks holding a permit). -/
def countHolding (ts : List TaskPhase) : Nat :=
  ts.countP (fun t => decide (t = .holding))

/-- One scheduler step: a pending task acquires a free permit, or a task
holding a permit completes — successfully or with an error — and its permit
is released unconditionally (RAII drop of `_permit`). -/
inductive BatchStep : SemState → SemState → Prop where
  | acquire (p : Nat) (ts : List TaskPhase) (i : Nat)
      (hi : ts.get? i = some .pending) :
      BatchStep ⟨p + 1, ts⟩ ⟨p, ts.set i .holding⟩
  | finish (p : Nat) (ts : List TaskPhase) (i : Nat) (ok : Bool)
      (hi : ts.get? i = some .holding) :
      BatchStep ⟨p, ts⟩ ⟨p + 1, ts.set i (.finished ok)⟩

/-- Start of `batch_create_users` with `n` items:
`Semaphore::new(batch_limit)` free permits, every task pending. -/
def initSemState (batch_limit n : Nat) : SemState :=
  ⟨batch_limit, List.replicate n .pending⟩

/-- States the batch scheduler can reach from its start. -/
def SemReachable (batch_limit n : Nat) (s : SemState) : Prop :=
  Relation.ReflTransGen BatchStep (initSemState batch_limit n) s

/-! ### Predicate helpers for the claims -/

/-- Whether an outcome is a success. -/
def okB {ε α : Type} : Except ε α → Bool
  | .ok _ => true
  | .error _ => false

/-- Whether an error is of the `Unauthorized` kind. -/
def isUnauthorized : AppError → Bool
  | .Unauthorized _ => true
  | _ => false

/-- A registration request that passes both validations. -/
def validRequest (req : RegisterRequest) : Bool :=
  okB (validate_email req.email) && okB (validate_password_policy req.password)

/-- The store invariant of the spec: no two stored users share the same
email up to ASCII-case-insensitive comparison. -/
def EmailsUnique (st : Store) : Prop :=
  st.Pairwise (fun a b => eqIgnoreAsciiCase a.email b.email = false)

/-- The `HashMap` key invariant of the in-memory backend: stored users have
pairwise distinct ids. -/
def IdsUnique (st : Store) : Prop :=
  st.Pairwise (fun a b => a.id ≠ b.id)

instance (st : Store) : Decidable (EmailsUnique st) := by
  unfold EmailsUnique; infer_instance

instance (st : Store) : Decidable (IdsUnique st) := by
  unfold IdsUnique; infer_instance

/-- Whether a repository result is a `NotFound` failure. -/
def isNotFoundErr : Except AppError (User × Store) → Bool
  | .error (.NotFound _) => true
  | _ => false

instance {ε α : Type} [DecidableEq ε] [DecidableEq α] : DecidableEq (Except ε α) := fun x y =>
  match x, y with
  | .ok a, .ok b => decidable_of_iff (a = b) ⟨fun h => by rw [h], fun h => Except.ok.inj h⟩
  | .error a, .error b =>
      decidable_of_iff (a = b) ⟨fun h => by rw [h], fun h => Except.error.inj h⟩
  | .ok _, .error _ => isFalse (fun h => Except.noConfusion h)
  | .error _, .ok _ => isFalse (fun h => Except.noConfusion h)

/-! ### Concrete demo values used to instantiate the theorems -/

/-- A demo signing key. -/
def demoKey : Nat := 5

/-- A demo claim set whose subject parses as user id 7 and which is far from
expiry at time 1000. -/
def demoClaims : Claims := { sub := "7", iat := 1000, exp := 4600, jti := "jti-1" }

/-- A correctly signed token for `demoClaims`. -/
def demoToken : Token := { claims := demoClaims, sig := mkSig demoKey demoClaims }

/-- A demo claim set that expired at time 100. -/
def expiredClaims : Claims := { sub := "7", iat := 0, exp := 100, jti := "jti-0" }

/-- A correctly signed token for `expiredClaims`. -/
def expiredToken : Token := { claims := expiredClaims, sig := mkSig demoKey expiredClaims }

/-- A demo claim set whose subject does not parse as a user id. -/
def badSubClaims : Claims := { sub := "x", iat := 1000, exp := 4600, jti := "jti-2" }

/-- A correctly signed token for `badSubClaims`. -/
def badSubToken : Token := { claims := badSubClaims, sig := mkSig demoKey badSubClaims }

/-- The stored user that `demoClaims` authenticates. -/
def demoUser : User :=
  { id := 7, email := "a@b.com", password_hash := "h", created_at := 0, status := .Active }

/-- A short user constructor for examples. -/
def mkUser (i : Nat) (em : String) : User :=
  { id := i, email := em, password_hash := "h", created_at := Int.ofNat i, status := .Active }

/-- A five-user store for the pagination example. -/
def demoStore5 : Store :=
  [mkUser 0 "u0@x.com", mkUser 1 "u1@x.com", mkUser 2 "u2@x.com",
   mkUser 3 "u3@x.com", mkUser 4 "u4@x.com"]

/-- A valid batch request. -/
def wreq1 : RegisterRequest := { email := "A@B.com", password := "Password1" }

/-- An invalid batch request (bad email and bad password). -/
def wreq2 : RegisterRequest := { email := "bad", password := "short" }

/-- Another valid batch request with a distinct email. -/
def wreq3 : RegisterRequest := { email := "c@d.com", password := "Secret99" }

/-- A valid batch request whose email collides case-insensitively with
`wreq1`, so in a batch after `wreq1` it fails with `Conflict`. -/
def wreqDup : RegisterRequest := { email := "a@B.com", password := "Password1" }

/-- First user of the duplicate-email scenario. -/
def cexU1 : User :=
  { id := 1, email := "a@b.com", password_hash := "h1", created_at := 0, status := .Active }

/-- Second user of the duplicate-email scenario (distinct email). -/
def cexU2 : User :=
  { id := 2, email := "c@d.com", password_hash := "h2", created_at := 1, status := .Active }

/-- The update payload that rewrites `cexU2`'s email to `cexU1`'s email up to
ASCII case. -/
def cexU2V2 : User :=
  { id := 2, email := "A@B.com", password_hash := "h2", created_at := 1, status := .Active }

/-- An update payload for `cexU2` with a fresh email. -/
def cexU2V3 : User :=
  { id := 2, email := "x@y.com", password_hash := "h2", created_at := 1, status := .Active }

/-! ## Theorems -/

/-- Reduction of the `Except` monad bind on a success. -/
theorem except_bind_ok {ε α β : Type} (a : α) (f : α → Except ε β) :
    (Except.ok a >>= f) = f a := rfl

/-- Reduction of the `Except` monad bind on a failure. -/
theorem except_bind_error {ε α β : Type} (e : ε) (f : α → Except ε β) :
    ((Except.error e : Except ε α) >>= f) = Except.error e := rfl

/-- Claim C10: the secret policy measures length in UTF-8 bytes and counts
only ASCII letters and digits: a password none of whose characters is an
ASCII letter or an ASCII digit always fails the policy (and `register` then
fails with `Validation` even for a well-formed email), while any string of
at least 8 bytes containing one ASCII letter and one ASCII digit passes. -/
theorem c10_password_policy_bytes_ascii (pw em : String) (lower hashFn : String → String)
    (st : Store) (uid : Nat) (t : Int) :
    ((∀ c ∈ pw.data, isAsciiAlphabetic c = false ∧ isAsciiDigit c = false) →
      ∃ m, validate_password_policy pw = .error (.Validation m))
    ∧ (8 ≤ pw.utf8ByteSize →
        (∃ c ∈ pw.data, isAsciiAlphabetic c = true) →
        (∃ c ∈ pw.data, isAsciiDigit c = true) →
        validate_password_policy pw = .ok ())
    ∧ ((∀ c ∈ pw.data, isAsciiAlphabetic c = false ∧ isAsciiDigit c = false) →
        validate_email em = .ok () →
        ∃ m, register lower hashFn st { email := em, password := pw } uid t
          = .error (.Validation m)) := by
  have hfail : (∀ c ∈ pw.data, isAsciiAlphabetic c = false ∧ isAsciiDigit c = false) →
      ∃ m, validate_password_policy pw = .error (.Validation m) := by
    intro hno
    unfold validate_password_policy
    split
    · exact ⟨_, rfl⟩
    · have hl : pw.data.any isAsciiAlphabetic = false := by
        rw [List.any_eq_false]
        intro c hc
        simp [(hno c hc).1]
      rw [hl]
      simp only [Bool.false_and, Bool.false_eq_true, if_false]
      exact ⟨_, rfl⟩
  refine ⟨hfail, ?_, ?_⟩
  · intro hlen ⟨cl, hcl, hcl2⟩ ⟨cd, hcd, hcd2⟩
    unfold validate_password_policy
    rw [if_neg (by omega)]
    have hl : pw.data.any isAsciiAlphabetic = true :=
      List.any_eq_true.2 ⟨cl, hcl, hcl2⟩
    have hd : pw.data.any isAsciiDigit = true :=
      List.any_eq_true.2 ⟨cd, hcd, hcd2⟩
    rw [hl, hd]
    rfl
  · intro hno hem
    obtain ⟨m, hm⟩ := hfail hno
    refine ⟨m, ?_⟩
    simp [register, hem, hm, except_bind_ok, except_bind_error]

/-- Witness for C10 at concrete passwords: "пароль١٢" has eight characters,
a (Cyrillic) letter and an (Arabic-Indic) digit but no ASCII letter or
digit, so it is rejected; "a1£££" has only five characters but eight UTF-8
bytes, an ASCII letter and an ASCII digit, so it is accepted. -/
theorem c10_password_policy_bytes_ascii_witness :
    (∃ m, validate_password_policy "пароль١٢" = .error (.Validation m))
    ∧ validate_password_policy "a1£££" = .ok ()
    ∧ (∃ m, register asciiLowerString (fun s => s) []
        { email := "a@b.com", password := "пароль١٢" } 0 0 = .error (.Validation m)) := by
  refine ⟨?_, ?_, ?_⟩
  · exact (c10_password_policy_bytes_ascii "пароль١٢" "a@b.com" asciiLowerString
      (fun s => s) [] 0 0).1 (by decide)
  · exact (c10_password_policy_bytes_ascii "a1£££" "a@b.com" asciiLowerString
      (fun s => s) [] 0 0).2.1 (by decide)
      ⟨'a', by decide, by decide⟩ ⟨'1', by decide, by decide⟩
  · exact (c10_password_policy_bytes_ascii "пароль١٢" "a@b.com" asciiLowerString
      (fun s => s) [] 0 0).2.2 (by decide) (by decide)

/-- Claim C4 counterexample: `expiredToken` is well-formed (correctly
signed) but expired, and with a revocation store configured `logout` decodes
it with expiry validation on, so logout fails with a `Jwt` error instead of
succeeding. -/
theorem c4_logout_counterexample :
    expiredToken.sig = mkSig demoKey expiredToken.claims
    ∧ expiredToken.claims.exp < 1000 - 60
    ∧ logout { key := demoKey, expiry_hours := 24, redis := some [("jti-0", 100)] }
        1000 expiredToken = .error (.Jwt "ExpiredSignature") := by
  refine ⟨rfl, by decide, by decide⟩

/-- Claim C4 amended: revoking an already-revoked token is not an error, and
without a revocation store logout always succeeds; but with a revocation
store configured, logout decodes the token with expiry validation enabled
(`Validation::new`), so revoking an expired token fails with a `Jwt` error
rather than succeeding. -/
theorem c4_logout_amended (a : AuthState) (now : Nat) (t : Token) :
    (a.redis = none → logout a now t = .ok a)
    ∧ (∀ store, a.redis = some store → t.sig = mkSig a.key t.claims →
        ¬(t.claims.exp < now - 60) →
        logout a now t
          = .ok { a with redis := some (store.filter (fun e => !(e.1 == t.claims.jti))) })
    ∧ (∀ store, a.redis = some store → t.sig = mkSig a.key t.claims →
        t.claims.exp < now - 60 →
        logout a now t = .error (.Jwt "ExpiredSignature")) := by
  refine ⟨?_, ?_, ?_⟩
  · intro h
    simp [logout, h]
  · intro store h hsig hexp
    simp [logout, h, decodeJwt, hsig, hexp]
  · intro store h hsig hexp
    simp [logout, h, decodeJwt, hsig, hexp]

/-- Witness for C4 amended: logout of an unexpired token succeeds with and
without a revocation store (deleting its whitelist entry), and logout of the
expired token with a store fails with the `Jwt` error. -/
theorem c4_logout_amended_witness :
    logout { key := demoKey, expiry_hours := 24, redis := none } 1000 demoToken
      = .ok { key := demoKey, expiry_hours := 24, redis := none }
    ∧ logout { key := demoKey, expiry_hours := 24, redis := some [("jti-1", 4600)] }
        1000 demoToken
      = .ok { key := demoKey, expiry_hours := 24,
              redis := some (List.filter (fun e => !(e.1 == demoToken.claims.jti))
                [("jti-1", 4600)]) }
    ∧ logout { key := demoKey, expiry_hours := 24, redis := some [("jti-0", 100)] }
        1000 expiredToken = .error (.Jwt "ExpiredSignature") := by
  refine ⟨?_, ?_, ?_⟩
  · exact (c4_logout_amended _ 1000 demoToken).1 rfl
  · exact (c4_logout_amended _ 1000 demoToken).2.1 [("jti-1", 4600)] rfl (by decide) (by decide)
  · exact (c4_logout_amended _ 1000 expiredToken).2.2 [("jti-0", 100)] rfl (by decide) (by decide)

/-- `countHolding` of the all-pending start is zero. -/
theorem countHolding_replicate (n : Nat) :
    countHolding (List.replicate n .pending) = 0 := by
  induction n with
  | zero => rfl
  | succ k ih => simp only [List.replicate_succ, countHolding, List.countP_cons] at ih ⊢; simp [ih]

/-- Admitting a pending task raises the in-flight count by one. -/
theorem countHolding_set_acquire (l : List TaskPhase) :
    ∀ (i : Nat), l.get? i = some .pending →
      countHolding (l.set i .holding) = countHolding l + 1 := by
  induction l with
  | nil => intro i h; simp at h
  | cons a as ih =>
    intro i h
    cases i with
    | zero =>
      simp only [List.get?_cons_zero, Option.some.injEq] at h
      subst h
      simp [countHolding, List.countP_cons]
    | succ j =>
      simp only [List.get?_cons_succ] at h
      have hj := ih j h
      simp only [List.set_cons_succ, countHolding, List.countP_cons] at hj ⊢
      omega

/-- Completing a task that holds a permit lowers the in-flight count by
one. -/
theorem countHolding_set_finish (l : List TaskPhase) :
    ∀ (i : Nat) (ok : Bool), l.get? i = some .holding →
      countHolding l = countHolding (l.set i (.finished ok)) + 1 := by
  induction l with
  | nil => intro i ok h; simp at h
  | cons a as ih =>
    intro i ok h
    cases i with
    | zero =>
      simp only [List.get?_cons_zero, Option.some.injEq] at h
      subst h
      simp [countHolding, List.countP_cons]
    | succ j =>
      simp only [List.get?_cons_succ] at h
      have hj := ih j ok h
      simp only [List.set_cons_succ, countHolding, List.countP_cons] at hj ⊢
      omega

/-- Claim C9: in every state the batch scheduler can reach, at most
`batch_limit` registrations are in flight, and permits are conserved —
`free permits + in-flight = batch_limit` — so every completed task, whether
it succeeded or failed, has released its slot. -/
theorem c9_batch_limit (batch_limit n : Nat) (s : SemState)
    (h : SemReachable batch_limit n s) :
    countHolding s.tasks ≤ batch_limit
    ∧ s.permits + countHolding s.tasks = batch_limit := by
  have key : s.permits + countHolding s.tasks = batch_limit := by
    induction h with
    | refl => simp [initSemState, countHolding_replicate]
    | tail hsteps hstep ih =>
      cases hstep with
      | acquire p ts i hi =>
        have hc := countHolding_set_acquire ts i hi
        simp only at ih ⊢
        omega
      | finish p ts i ok hi =>
        have hc := countHolding_set_finish ts i ok hi
        simp only at ih ⊢
        omega
  exact ⟨by omega, key⟩

/-- Witness for C9 at a concrete reachable state: after one task of three
has acquired one of two permits, one registration is in flight and
`permits + in-flight` is still the limit. -/
theorem c9_batch_limit_witness :
    countHolding (SemState.mk 1 [.holding, .pending, .pending]).tasks ≤ 2
    ∧ (SemState.mk 1 [.holding, .pending, .pending]).permits
        + countHolding (SemState.mk 1 [.holding, .pending, .pending]).tasks = 2 := by
  have h0 : BatchStep (initSemState 2 3) ⟨1, [.holding, .pending, .pending]⟩ :=
    BatchStep.acquire 1 (List.replicate 3 .pending) 0 rfl
  exact c9_batch_limit 2 3 ⟨1, [.holding, .pending, .pending]⟩
    (Relation.ReflTransGen.tail Relation.ReflTransGen.refl h0)

/-- Claim C7: for every store state and page ≥ 1, perPage ≥ 1, the in-memory
`list` returns the users sorted by `created_at` ascending restricted to the
window `[(page-1)*perPage, page*perPage)` clamped to the available range,
together with the total count, and never errors on out-of-range pages: on an
empty store `list(1,10) = (empty, 0)` and on a 5-item store
`list(1000,10) = (empty, 5)`. -/
theorem c7_list_pagination (st : Store) (page per : Nat)
    (_hp : 1 ≤ page) (hq : 1 ≤ per) :
    (memList st ⟨page, per⟩).2 = st.length
    ∧ (memList st ⟨page, per⟩).1 = ((sortUsers st).drop ((page - 1) * per)).take per
    ∧ List.Sorted byCreatedAt (memList st ⟨page, per⟩).1
    ∧ (st = [] → memList st ⟨1, 10⟩ = ([], 0))
    ∧ (st.length = 5 → memList st ⟨1000, 10⟩ = ([], 5)) := by
  have hlen : (sortUsers st).length = st.length :=
    (List.perm_insertionSort byCreatedAt st).length_eq
  have hwindow : (memList st ⟨page, per⟩).1
      = ((sortUsers st).drop ((page - 1) * per)).take per := by
    simp only [memList]
    generalize (sortUsers st) = L
    generalize hs : (page - 1) * per = s
    by_cases h : s < min (s + per) L.length
    · rw [if_pos h]
      rcases Nat.le_total (s + per) L.length with h2 | h2
      · rw [Nat.min_eq_left h2, Nat.add_sub_cancel_left]
      · rw [Nat.min_eq_right h2]
        have hd2 : (L.drop s).length ≤ L.length - s := by simp [List.length_drop]
        have hd : (L.drop s).length ≤ per := by
          simp only [List.length_drop]
          omega
        rw [List.take_of_length_le hd2, List.take_of_length_le hd]
    · rw [if_neg h]
      have hle : L.length ≤ s := by omega
      rw [List.drop_eq_nil_of_le hle, List.take_nil]
  refine ⟨by simp [memList, hlen], hwindow, ?_, ?_, ?_⟩
  · rw [hwindow]
    have hsorted : List.Sorted byCreatedAt (sortUsers st) :=
      List.sorted_insertionSort byCreatedAt st
    exact List.Pairwise.sublist
      (((sortUsers st).drop ((page - 1) * per)).take_sublist per |>.trans
        ((sortUsers st).drop_sublist ((page - 1) * per))) hsorted
  · intro h
    subst h
    rfl
  · intro h5
    have hl5 : (sortUsers st).length = 5 := by rw [hlen, h5]
    simp only [memList, hl5]
    rw [if_neg (by omega)]

/-- Witness for C7 on the five-user demo store at page 1000 of size 10. -/
theorem c7_list_pagination_witness :
    (memList demoStore5 ⟨1000, 10⟩).2 = demoStore5.length
    ∧ (memList demoStore5 ⟨1000, 10⟩).1
        = ((sortUsers demoStore5).drop ((1000 - 1) * 10)).take 10
    ∧ List.Sorted byCreatedAt (memList demoStore5 ⟨1000, 10⟩).1
    ∧ (demoStore5 = [] → memList demoStore5 ⟨1, 10⟩ = ([], 0))
    ∧ (demoStore5.length = 5 → memList demoStore5 ⟨1000, 10⟩ = ([], 5)) :=
  c7_list_pagination demoStore5 1000 10 (by decide) (by decide)

/-- Case-insensitive equality and equality of ASCII-lowered strings
agree. -/
theorem eqIgnoreAsciiCase_iff_lower (a b : String) :
    eqIgnoreAsciiCase a b = true ↔ asciiLowerString a = asciiLowerString b := by
  simp [eqIgnoreAsciiCase, asciiLowerString, String.ext_iff]

/-- Claim C6 counterexample: updating an id that does not exist fails with
`NotFound` on the in-memory backend but with a raw `Repo` error (the mapped
`sqlx` RowNotFound) on the Postgres backend, so the two backends do not have
identical error taxonomy. -/
theorem c6_update_counterexample :
    isNotFoundErr (memUpdate [] demoUser) = true
    ∧ isNotFoundErr (pgUpdate [] demoUser) = false
    ∧ pgUpdate [] demoUser = .error (.Repo rowNotFoundMsg) :=
  ⟨rfl, rfl, rfl⟩

/-- Claim C6 amended: create on a case-insensitively duplicate email fails
with `Conflict` on both backends, and update of a missing id fails with
`NotFound` on the in-memory backend — but on the Postgres backend it
surfaces as a `Repo` error (the RowNotFound of the UPDATE..RETURNING
query), not `NotFound`. -/
theorem c6_error_taxonomy_amended (st : Store) (u : User) :
    ((∃ v ∈ st, eqIgnoreAsciiCase v.email u.email = true) →
      memCreate st u = .error (.Conflict "email already exists")
      ∧ pgCreate st u = .error (.Conflict "email already exists"))
    ∧ ((∀ v ∈ st, v.id ≠ u.id) →
      memUpdate st u = .error (.NotFound "user not found")
      ∧ pgUpdate st u = .error (.Repo rowNotFoundMsg)) := by
  constructor
  · rintro ⟨v, hv, hveq⟩
    have h1 : st.any (fun w => eqIgnoreAsciiCase w.email u.email) = true :=
      List.any_eq_true.2 ⟨v, hv, hveq⟩
    have h2 : st.any (fun w => asciiLowerString w.email == asciiLowerString u.email) = true := by
      refine List.any_eq_true.2 ⟨v, hv, ?_⟩
      rw [beq_iff_eq]
      exact (eqIgnoreAsciiCase_iff_lower _ _).1 hveq
    exact ⟨by simp [memCreate, h1], by simp [pgCreate, h2]⟩
  · intro hid
    have hany : st.any (fun v => v.id == u.id) = false := by
      rw [List.any_eq_false]
      intro v hv
      simp [hid v hv]
    have hfind : st.find? (fun v => v.id == u.id) = none := by
      rw [List.find?_eq_none]
      intro v hv
      simp [hid v hv]
    exact ⟨by simp [memUpdate, hany], by simp [pgUpdate, hfind]⟩

/-- Witness for C6 amended: a concrete duplicate-email create conflicts on
both backends, and a concrete missing-id update diverges as stated. -/
theorem c6_error_taxonomy_amended_witness :
    (memCreate [cexU1] cexU2V2 = .error (.Conflict "email already exists")
      ∧ pgCreate [cexU1] cexU2V2 = .error (.Conflict "email already exists"))
    ∧ (memUpdate [cexU1] demoUser = .error (.NotFound "user not found")
      ∧ pgUpdate [cexU1] demoUser = .error (.Repo rowNotFoundMsg)) :=
  ⟨(c6_error_taxonomy_amended [cexU1] cexU2V2).1 ⟨cexU1, by decide, by decide⟩,
   (c6_error_taxonomy_amended [cexU1] demoUser).2 (by decide)⟩

/-- Claim C8 counterexample: a successful batch item constructs its user
with status `Active`, while the single-item register path constructs the
same user with status `PendingVerification`. -/
theorem c8_batch_status_counterexample :
    (batchItem asciiLowerString (fun s => s) []
        { email := "A@B.com", password := "Password1" } 0 0).map (fun p => p.1.status)
      = .ok .Active
    ∧ (register asciiLowerString (fun s => s) []
        { email := "A@B.com", password := "Password1" } 0 0).map (fun p => p.1.status)
      = .ok (.PendingVerification "123456")
    ∧ UserStatus.Active ≠ UserStatus.PendingVerification "123456" :=
  ⟨rfl, rfl, by decide⟩

/-- Claim C8 amended: every successful batch item lower-cases the email and
hashes the secret exactly as the single-item register does, and the
single-item register succeeds on the same inputs — but the batch item's
user has status `Active`, whereas register's has
`PendingVerification { code: "123456" }`. -/
theorem c8_batch_item_amended (lower hashFn : String → String) (st : Store)
    (req : RegisterRequest) (uid : Nat) (t : Int) :
    ∀ u st2, batchItem lower hashFn st req uid t = .ok (u, st2) →
      u.email = lower req.email ∧ u.password_hash = hashFn req.password
      ∧ u.status = .Active
      ∧ register lower hashFn st req uid t
          = .ok ({ u with status := .PendingVerification "123456" },
                 hmInsert st { u with status := .PendingVerification "123456" }) := by
  intro u st2 h
  unfold batchItem at h
  cases hve : validate_email req.email with
  | error e =>
    simp only [hve, except_bind_error] at h
    exact Except.noConfusion h
  | ok v =>
    cases hvp : validate_password_policy req.password with
    | error e =>
      simp only [hve, except_bind_ok, hvp, except_bind_error] at h
      exact Except.noConfusion h
    | ok v2 =>
      simp only [hve, except_bind_ok, hvp] at h
      unfold memCreate at h
      split at h
      · exact absurd h (by simp)
      · rename_i hcond
        simp only [Except.ok.injEq, Prod.mk.injEq] at h
        obtain ⟨hu, _hst⟩ := h
        subst hu
        refine ⟨rfl, rfl, rfl, ?_⟩
        unfold register
        simp only [hve, except_bind_ok, hvp]
        unfold memCreate
        rw [if_neg hcond]

/-- Witness for C8 amended at a concrete successful batch item. -/
theorem c8_batch_item_amended_witness :
    (mkUser 0 "a@b.com").email = asciiLowerString "A@B.com"
    ∧ "Password1" = (fun s : String => s) "Password1"
    ∧ UserStatus.Active = UserStatus.Active
    ∧ register asciiLowerString (fun s : String => s) []
        { email := "A@B.com", password := "Password1" } 0 0
      = .ok ({ id := 0, email := "a@b.com", password_hash := "Password1",
               created_at := 0, status := .PendingVerification "123456" },
             hmInsert []
               { id := 0, email := "a@b.com", password_hash := "Password1",
                 created_at := 0, status := .PendingVerification "123456" }) := by
  have h := c8_batch_item_amended asciiLowerString (fun s => s) []
    { email := "A@B.com", password := "Password1" } 0 0
    { id := 0, email := "a@b.com", password_hash := "Password1",
      created_at := 0, status := .Active }
    [{ id := 0, email := "a@b.com", password_hash := "Password1",
       created_at := 0, status := .Active }] (by decide)
  exact ⟨by decide, rfl, rfl, h.2.2.2⟩

/-- Case-insensitive email equality is symmetric. -/
theorem eqIgnoreAsciiCase_symm (a b : String) :
    eqIgnoreAsciiCase a b = eqIgnoreAsciiCase b a :=
  decide_eq_decide.mpr eq_comm

/-- From a failed `List.any`, every member falsifies the predicate. -/
theorem any_false_mem {α : Type} {p : α → Bool} {l : List α}
    (h : ¬ l.any p = true) : ∀ v ∈ l, p v = false := by
  intro v hv
  cases hpv : p v
  · rfl
  · exact absurd (List.any_eq_true.2 ⟨v, hv, hpv⟩) h

/-- Members of `hmInsert st u` come from `st` or are `u`. -/
theorem mem_hmInsert (st : Store) (u v : User) (h : v ∈ hmInsert st u) :
    v ∈ st ∨ v = u := by
  unfold hmInsert at h
  split at h
  · obtain ⟨x, hx, hfx⟩ := List.mem_map.1 h
    by_cases hid : x.id = u.id
    · rw [if_pos (by simp [hid])] at hfx
      right; exact hfx.symm
    · rw [if_neg (by simp [hid])] at hfx
      left; exact hfx ▸ hx
  · rcases List.mem_append.1 h with h1 | h1
    · left; exact h1
    · right; simpa using h1

/-- Appending a user whose email collides with no stored email preserves
email uniqueness. -/
theorem emailsUnique_append (st : Store) (u : User)
    (hem : EmailsUnique st)
    (hfresh : ∀ v ∈ st, eqIgnoreAsciiCase v.email u.email = false) :
    EmailsUnique (st ++ [u]) := by
  unfold EmailsUnique at hem ⊢
  rw [List.pairwise_append]
  refine ⟨hem, List.pairwise_singleton _ _, ?_⟩
  intro a ha b hb
  have hbu : b = u := by simpa using hb
  subst hbu
  exact hfresh a ha

/-- Replacing the (unique) user with id `u.id` by `u` preserves email
uniqueness, provided `u.email` collides with no other stored email. -/
theorem emailsUnique_replace (u : User) : ∀ (st : Store),
    IdsUnique st → EmailsUnique st →
    (∀ v ∈ st, v.id ≠ u.id → eqIgnoreAsciiCase v.email u.email = false) →
    EmailsUnique (st.map (fun v => if v.id == u.id then u else v)) := by
  intro st
  induction st with
  | nil =>
    intro _ _ _
    simp [EmailsUnique]
  | cons a rest ih =>
    intro hids hem hfresh
    rw [IdsUnique, List.pairwise_cons] at hids
    rw [EmailsUnique, List.pairwise_cons] at hem
    obtain ⟨hida, hidr⟩ := hids
    obtain ⟨hema, hemr⟩ := hem
    rw [List.map_cons, EmailsUnique, List.pairwise_cons]
    constructor
    · intro w hw
      obtain ⟨x, hx, hfx⟩ := List.mem_map.1 hw
      subst hfx
      by_cases haa : a.id = u.id
      · rw [if_pos (by simp [haa])]
        by_cases hxa : x.id = u.id
        · exact absurd (haa.trans hxa.symm) (hida x hx)
        · rw [if_neg (by simp [hxa])]
          rw [eqIgnoreAsciiCase_symm]
          exact hfresh x (List.mem_cons_of_mem a hx) hxa
      · rw [if_neg (by simp [haa])]
        by_cases hxa : x.id = u.id
        · rw [if_pos (by simp [hxa])]
          exact hfresh a (List.mem_cons_self a rest) haa
        · rw [if_neg (by simp [hxa])]
          exact hema x hx
    · exact ih hidr hemr (fun v hv hne => hfresh v (List.mem_cons_of_mem a hv) hne)

/-- Claim C2 counterexample: from the empty store two creates reach a state
with unique emails, and then a plain `update` of the second user to the
first user's email (different ASCII case) succeeds and leaves the store
with two users sharing the same email case-insensitively — update does not
enforce the invariant. -/
theorem c2_update_counterexample :
    memCreate [] cexU1 = .ok (cexU1, [cexU1])
    ∧ memCreate [cexU1] cexU2 = .ok (cexU2, [cexU1, cexU2])
    ∧ EmailsUnique [cexU1, cexU2]
    ∧ memUpdate [cexU1, cexU2] cexU2V2 = .ok (cexU2V2, [cexU1, cexU2V2])
    ∧ ¬ EmailsUnique [cexU1, cexU2V2] :=
  ⟨by decide, by decide, by decide, by decide, by decide⟩

/-- Claim C2 amended: `create` and `delete` preserve case-insensitive email
uniqueness (given the map-key invariant of distinct ids), but `update`
preserves it only under the extra assumption that the new email is not held
by any other stored user — the code performs no such check, so update can
produce duplicates (see the counterexample). -/
theorem c2_uniqueness_amended (st : Store) (u : User) (d : Nat) :
    (IdsUnique st → EmailsUnique st →
      ∀ x st2, memCreate st u = .ok (x, st2) → EmailsUnique st2)
    ∧ (EmailsUnique st → ∀ st2, memDelete st d = .ok st2 → EmailsUnique st2)
    ∧ (IdsUnique st → EmailsUnique st →
      (∀ v ∈ st, v.id ≠ u.id → eqIgnoreAsciiCase v.email u.email = false) →
      ∀ x st2, memUpdate st u = .ok (x, st2) → EmailsUnique st2) := by
  refine ⟨?_, ?_, ?_⟩
  · intro hids hem x st2 h
    unfold memCreate at h
    split at h
    · exact Except.noConfusion h
    · rename_i hcond
      simp only [Except.ok.injEq, Prod.mk.injEq] at h
      obtain ⟨_hx, hst⟩ := h
      subst hst
      have hfresh := any_false_mem hcond
      unfold hmInsert
      split
      · exact emailsUnique_replace u st hids hem (fun v hv _ => hfresh v hv)
      · exact emailsUnique_append st u hem hfresh
  · intro hem st2 h
    unfold memDelete at h
    split at h
    · simp only [Except.ok.injEq] at h
      subst h
      unfold EmailsUnique at hem ⊢
      exact List.Pairwise.sublist (List.filter_sublist st) hem
    · exact Except.noConfusion h
  · intro hids hem hfresh x st2 h
    unfold memUpdate at h
    split at h
    · rename_i hcond
      simp only [Except.ok.injEq, Prod.mk.injEq] at h
      obtain ⟨_hx, hst⟩ := h
      subst hst
      unfold hmInsert
      split
      · exact emailsUnique_replace u st hids hem hfresh
      · rename_i hcond2
        exact absurd hcond hcond2
    · exact Except.noConfusion h

/-- Witness for C2 amended: concrete create, delete and
fresh-email update all leave the store's emails unique. -/
theorem c2_uniqueness_amended_witness :
    EmailsUnique [cexU1, cexU2]
    ∧ EmailsUnique [cexU1]
    ∧ EmailsUnique [cexU1, cexU2V3] := by
  refine ⟨?_, ?_, ?_⟩
  · exact (c2_uniqueness_amended [cexU1] cexU2 0).1 (by decide) (by decide)
      cexU2 [cexU1, cexU2] (by decide)
  · exact (c2_uniqueness_amended [cexU1, cexU2] cexU1 2).2.1 (by decide)
      [cexU1] (by decide)
  · exact (c2_uniqueness_amended [cexU1, cexU2] cexU2V3 0).2.2 (by decide) (by decide)
      (by decide) cexU2V3 [cexU1, cexU2V3] (by decide)

/-- A successful decode returns exactly the token's claim set. -/
theorem decodeJwt_ok_claims {key : Nat} {ve : Bool} {lw now : Nat} {t : Token} {c : Claims}
    (h : decodeJwt key ve lw now t = .ok c) : c = t.claims := by
  unfold decodeJwt at h
  split at h
  · exact Except.noConfusion h
  · split at h
    · exact Except.noConfusion h
    · exact (Except.ok.inj h).symm

/-- Claim C1 counterexample: a `me` request with a badly signed bearer
token fails with a `Jwt` error, not `Unauthorized` — the failure kind is
observable, so the chain does not collapse all causes to `Unauthorized`. -/
theorem c1_me_counterexample :
    current_user_from_headers { key := demoKey, expiry_hours := 24, redis := none }
        [demoUser] 1000
        (.bearer { claims := demoClaims, sig := mkSig demoKey demoClaims + 1 })
      = .error (.Jwt "InvalidSignature")
    ∧ isUnauthorized (.Jwt "InvalidSignature") = false :=
  ⟨rfl, rfl⟩

/-- Claim C1 amended: in the `me` chain only a missing/malformed bearer
header and a revoked (or whitelist-absent) token surface as `Unauthorized`;
a badly signed token surfaces as `Jwt "InvalidSignature"`, an expired token
as `Jwt "ExpiredSignature"`, a subject that does not parse as a user id as
`Parse`, and a user missing from the store as `NotFound` — each error kind
propagates unchanged. -/
theorem c1_me_error_kinds (a : AuthState) (st : Store) (now : Nat) :
    (current_user_from_headers a st now .missing
      = .error (.Unauthorized "missing bearer token"))
    ∧ (∀ raw, current_user_from_headers a st now (.malformed raw)
        = .error (.Unauthorized "missing bearer token"))
    ∧ (∀ tok, tok.sig ≠ mkSig a.key tok.claims →
        current_user_from_headers a st now (.bearer tok)
          = .error (.Jwt "InvalidSignature"))
    ∧ (∀ tok, tok.sig = mkSig a.key tok.claims → tok.claims.exp < now - 60 →
        current_user_from_headers a st now (.bearer tok)
          = .error (.Jwt "ExpiredSignature"))
    ∧ (∀ tok store, a.redis = some store → tok.sig = mkSig a.key tok.claims →
        ¬(tok.claims.exp < now - 60) → jtiLive store now tok.claims.jti = false →
        current_user_from_headers a st now (.bearer tok)
          = .error (.Unauthorized "token revoked or expired"))
    ∧ (∀ tok, validate_token a now tok = .ok tok.claims →
        parseUuid tok.claims.sub = none →
        current_user_from_headers a st now (.bearer tok)
          = .error (.Parse "invalid uuid"))
    ∧ (∀ tok uid, validate_token a now tok = .ok tok.claims →
        parseUuid tok.claims.sub = some uid →
        st.find? (fun v => v.id == uid) = none →
        current_user_from_headers a st now (.bearer tok)
          = .error (.NotFound "user not found")) := by
  refine ⟨rfl, fun raw => rfl, ?_, ?_, ?_, ?_, ?_⟩
  · intro tok h
    simp [current_user_from_headers, bearer_from_headers, user_id_from_token,
      validate_token, decodeJwt, h]
  · intro tok hsig hexp
    simp [current_user_from_headers, bearer_from_headers, user_id_from_token,
      validate_token, decodeJwt, hsig, hexp]
  · intro tok store hred hsig hexp hjti
    simp [current_user_from_headers, bearer_from_headers, user_id_from_token,
      validate_token, decodeJwt, hred, hsig, hexp, hjti]
  · intro tok hval hsub
    simp [current_user_from_headers, bearer_from_headers, user_id_from_token,
      hval, hsub]
  · intro tok uid hval hsub hfind
    simp [current_user_from_headers, bearer_from_headers, user_id_from_token,
      hval, hsub, memFindById, hfind]

/-- Witness for C1 amended at concrete requests exhibiting each failure
kind. -/
theorem c1_me_error_kinds_witness :
    current_user_from_headers { key := demoKey, expiry_hours := 24, redis := none }
        [demoUser] 1000 .missing = .error (.Unauthorized "missing bearer token")
    ∧ current_user_from_headers { key := demoKey, expiry_hours := 24, redis := none }
        [demoUser] 1000 (.malformed "Basic x")
      = .error (.Unauthorized "missing bearer token")
    ∧ current_user_from_headers { key := demoKey, expiry_hours := 24, redis := none }
        [demoUser] 1000
        (.bearer { claims := demoClaims, sig := mkSig demoKey demoClaims + 1 })
      = .error (.Jwt "InvalidSignature")
    ∧ current_user_from_headers { key := demoKey, expiry_hours := 24, redis := none }
        [demoUser] 1000 (.bearer expiredToken) = .error (.Jwt "ExpiredSignature")
    ∧ current_user_from_headers { key := demoKey, expiry_hours := 24, redis := some [] }
        [demoUser] 1000 (.bearer demoToken)
      = .error (.Unauthorized "token revoked or expired")
    ∧ current_user_from_headers { key := demoKey, expiry_hours := 24, redis := none }
        [demoUser] 1000 (.bearer badSubToken) = .error (.Parse "invalid uuid")
    ∧ current_user_from_headers { key := demoKey, expiry_hours := 24, redis := none }
        [] 1000 (.bearer demoToken) = .error (.NotFound "user not found") := by
  refine ⟨?_, ?_, ?_, ?_, ?_, ?_, ?_⟩
  · exact (c1_me_error_kinds _ [demoUser] 1000).1
  · exact (c1_me_error_kinds _ [demoUser] 1000).2.1 "Basic x"
  · exact (c1_me_error_kinds _ [demoUser] 1000).2.2.1 _ (by decide)
  · exact (c1_me_error_kinds _ [demoUser] 1000).2.2.2.1 expiredToken (by decide) (by decide)
  · exact (c1_me_error_kinds _ [demoUser] 1000).2.2.2.2.1 demoToken [] rfl (by decide)
      (by decide) (by decide)
  · exact (c1_me_error_kinds _ [demoUser] 1000).2.2.2.2.2.1 badSubToken (by decide) (by decide)
  · exact (c1_me_error_kinds _ [] 1000).2.2.2.2.2.2 demoToken 7 (by decide) (by decide)
      (by decide)

/-- Claim C5: with a revocation store configured, `validate` fails with
`Unauthorized` for any well-formed unexpired token whose `jti` is not live
in the store (deleted or TTL-expired); hence logout followed by `me` with
the same token fails with `Unauthorized`. Without a revocation store,
logout changes nothing and signature+expiry alone decide validity, so `me`
still succeeds after logout until natural expiry. -/
theorem c5_revocation_modes (key hrs now : Nat) (tok : Token)
    (store : RevocationStore) (st : Store) :
    (tok.sig = mkSig key tok.claims → ¬(tok.claims.exp < now - 60) →
      jtiLive store now tok.claims.jti = false →
      validate_token ⟨key, hrs, some store⟩ now tok
        = .error (.Unauthorized "token revoked or expired"))
    ∧ (∀ u, current_user_from_headers ⟨key, hrs, some store⟩ st now (.bearer tok) = .ok u →
        logout ⟨key, hrs, some store⟩ now tok
          = .ok ⟨key, hrs, some (store.filter (fun e => !(e.1 == tok.claims.jti)))⟩
        ∧ current_user_from_headers
            ⟨key, hrs, some (store.filter (fun e => !(e.1 == tok.claims.jti)))⟩
            st now (.bearer tok)
          = .error (.Unauthorized "token revoked or expired"))
    ∧ logout ⟨key, hrs, none⟩ now tok = .ok ⟨key, hrs, none⟩
    ∧ (tok.sig = mkSig key tok.claims → ¬(tok.claims.exp < now - 60) →
        validate_token ⟨key, hrs, none⟩ now tok = .ok tok.claims) := by
  refine ⟨?_, ?_, rfl, ?_⟩
  · intro hsig hexp hjti
    simp [validate_token, decodeJwt, hsig, hexp, hjti]
  · intro u hme
    cases hd0 : decodeJwt key true 60 now tok with
    | error e =>
      exfalso
      simp [current_user_from_headers, bearer_from_headers, user_id_from_token,
        validate_token, hd0] at hme
    | ok c =>
      have hc := decodeJwt_ok_claims hd0
      subst hc
      by_cases hlive : jtiLive store now tok.claims.jti = true
      · constructor
        · simp [logout, hd0]
        · have hfl : jtiLive (store.filter (fun e => !(e.1 == tok.claims.jti)))
              now tok.claims.jti = false := by
            unfold jtiLive
            rw [List.any_eq_false]
            intro e he
            rw [List.mem_filter] at he
            obtain ⟨_he1, he2⟩ := he
            rw [Bool.not_eq_true'] at he2
            simp [he2]
          simp [current_user_from_headers, bearer_from_headers, user_id_from_token,
            validate_token, hd0, hfl]
      · exfalso
        have hlf : jtiLive store now tok.claims.jti = false := by
          cases h0 : jtiLive store now tok.claims.jti
          · rfl
          · exact absurd h0 hlive
        simp [current_user_from_headers, bearer_from_headers, user_id_from_token,
          validate_token, hd0, hlf] at hme
  · intro hsig hexp
    simp [validate_token, decodeJwt, hsig, hexp]

/-- Witness for C5 at concrete tokens and stores: a live token is revoked
by logout and then rejected by `me` with `Unauthorized`; in stateless mode
logout is a no-op and validation still succeeds. -/
theorem c5_revocation_modes_witness :
    validate_token { key := demoKey, expiry_hours := 24, redis := some [] } 1000 demoToken
      = .error (.Unauthorized "token revoked or expired")
    ∧ (logout { key := demoKey, expiry_hours := 24, redis := some [("jti-1", 4600)] }
          1000 demoToken
        = .ok { key := demoKey, expiry_hours := 24,
                redis := some (List.filter (fun e => !(e.1 == demoToken.claims.jti))
                  [("jti-1", 4600)]) }
      ∧ current_user_from_headers
          { key := demoKey, expiry_hours := 24,
            redis := some (List.filter (fun e => !(e.1 == demoToken.claims.jti))
              [("jti-1", 4600)]) }
          [demoUser] 1000 (.bearer demoToken)
        = .error (.Unauthorized "token revoked or expired"))
    ∧ logout { key := demoKey, expiry_hours := 24, redis := none } 1000 demoToken
        = .ok { key := demoKey, expiry_hours := 24, redis := none }
    ∧ validate_token { key := demoKey, expiry_hours := 24, redis := none } 1000 demoToken
        = .ok demoToken.claims := by
  refine ⟨?_, ?_, ?_, ?_⟩
  · exact (c5_revocation_modes demoKey 24 1000 demoToken [] [demoUser]).1
      (by decide) (by decide) (by decide)
  · exact (c5_revocation_modes demoKey 24 1000 demoToken [("jti-1", 4600)] [demoUser]).2.1
      demoUser (by decide)
  · exact (c5_revocation_modes demoKey 24 1000 demoToken [] []).2.2.1
  · exact (c5_revocation_modes demoKey 24 1000 demoToken [] []).2.2.2 (by decide) (by decide)

/-- A successful outcome carries a value. -/
theorem okB_true {ε α : Type} {e : Except ε α} (h : okB e = true) : ∃ v, e = .ok v := by
  cases e with
  | ok v => exact ⟨v, rfl⟩
  | error e0 => simp [okB] at h

/-- A failed outcome carries an error. -/
theorem okB_false {ε α : Type} {e : Except ε α} (h : okB e = false) : ∃ v, e = .error v := by
  cases e with
  | ok v => simp [okB] at h
  | error e0 => exact ⟨e0, rfl⟩

/-- A batch item on a valid request whose lowered email is fresh in the
store succeeds and appends/stores the constructed user. -/
theorem batchItem_of_valid (lower hashFn : String → String) (st : Store)
    (req : RegisterRequest) (uid : Nat) (t : Int)
    (hv : validRequest req = true)
    (hfresh : ∀ v ∈ st, eqIgnoreAsciiCase v.email (lower req.email) = false) :
    batchItem lower hashFn st req uid t
      = .ok ({ id := uid, email := lower req.email, password_hash := hashFn req.password,
               created_at := t, status := .Active },
             hmInsert st
               { id := uid, email := lower req.email,
                 password_hash := hashFn req.password, created_at := t,
                 status := .Active }) := by
  unfold validRequest at hv
  rw [Bool.and_eq_true] at hv
  obtain ⟨h1, h2⟩ := hv
  obtain ⟨v1, hve⟩ := okB_true h1
  obtain ⟨v2, hvp⟩ := okB_true h2
  have hc : st.any (fun v => eqIgnoreAsciiCase v.email (lower req.email)) = false := by
    rw [List.any_eq_false]
    intro v hvm
    simp [hfresh v hvm]
  unfold batchItem
  rw [hve, except_bind_ok, hvp, except_bind_ok]
  simp [memCreate, hc]

/-- A batch item on an invalid request fails before touching the store. -/
theorem batchItem_of_invalid (lower hashFn : String → String) (st : Store)
    (req : RegisterRequest) (uid : Nat) (t : Int)
    (hv : validRequest req = false) :
    ∃ e, batchItem lower hashFn st req uid t = .error e := by
  cases h1 : okB (validate_email req.email) with
  | false =>
    obtain ⟨e0, hve⟩ := okB_false h1
    exact ⟨e0, by unfold batchItem; rw [hve, except_bind_error]⟩
  | true =>
    obtain ⟨v1, hve⟩ := okB_true h1
    have h2 : okB (validate_password_policy req.password) = false := by
      unfold validRequest at hv
      rw [h1] at hv
      simpa using hv
    obtain ⟨e0, hvp⟩ := okB_false h2
    exact ⟨e0, by unfold batchItem; rw [hve, except_bind_ok, hvp, except_bind_error]⟩

/-- The `join_all` results vector is position-aligned with the input: under
freshness and pairwise-distinctness of the valid items' emails, item `i`
succeeds exactly when request `i` passes validation. -/
theorem runBatchAux_aligned (lower hashFn : String → String) (t : Int) :
    ∀ (reqs : List RegisterRequest) (st : Store) (i0 : Nat),
    (∀ r ∈ reqs, validRequest r = true →
       ∀ v ∈ st, eqIgnoreAsciiCase v.email (lower r.email) = false) →
    List.Pairwise (fun r s => validRequest r = true → validRequest s = true →
       eqIgnoreAsciiCase (lower r.email) (lower s.email) = false) reqs →
    List.Forall₂ (fun out req => okB out = validRequest req)
      (runBatchAux lower hashFn t st i0 reqs).1 reqs := by
  intro reqs
  induction reqs with
  | nil =>
    intro st i0 _ _
    simp only [runBatchAux]
    exact List.Forall₂.nil
  | cons req rest ih =>
    intro st i0 H1 H2
    rw [List.pairwise_cons] at H2
    obtain ⟨H2h, H2t⟩ := H2
    cases hv : validRequest req with
    | true =>
      have hfresh : ∀ v ∈ st, eqIgnoreAsciiCase v.email (lower req.email) = false :=
        H1 req (List.mem_cons_self _ _) hv
      have hbi := batchItem_of_valid lower hashFn st req i0 t hv hfresh
      simp only [runBatchAux, hbi]
      refine List.Forall₂.cons (by simp [okB, hv]) ?_
      refine ih _ (i0 + 1) ?_ H2t
      intro r hr hvr v hvm
      rcases mem_hmInsert _ _ v hvm with hmem | hmem
      · exact H1 r (List.mem_cons_of_mem _ hr) hvr v hmem
      · subst hmem
        exact H2h r hr hv hvr
    | false =>
      obtain ⟨e0, hbi⟩ := batchItem_of_invalid lower hashFn st req i0 t hv
      simp only [runBatchAux, hbi]
      refine List.Forall₂.cons (by simp [okB, hv]) ?_
      exact ih st (i0 + 1) (fun r hr hvr v hvm => H1 r (List.mem_cons_of_mem _ hr) hvr v hvm) H2t

/-- Filters along a `Forall₂` whose relation equates the predicates have
equal lengths. -/
theorem forall₂_filter_length {α β : Type} (p : α → Bool) (q : β → Bool) :
    ∀ (l₁ : List α) (l₂ : List β),
    List.Forall₂ (fun a b => p a = q b) l₁ l₂ →
    (l₁.filter p).length = (l₂.filter q).length := by
  intro l₁ l₂ h
  induction h with
  | nil => rfl
  | cons hab htail ih =>
    rename_i a b la lb
    simp only [List.filter_cons]
    rw [hab]
    cases hq : q b
    · simpa using ih
    · simpa using ih

/-- The `created` projection of the handler is the success filter of the
results vector. -/
theorem length_filterMap_created (l : List (Except AppError User)) :
    (l.filterMap (fun r => match r with | .ok u => some u | .error _ => none)).length
      = (l.filter okB).length := by
  induction l with
  | nil => rfl
  | cons a l ih =>
    cases a with
    | ok u => simpa [List.filterMap_cons, List.filter_cons, okB] using ih
    | error e => simpa [List.filterMap_cons, List.filter_cons, okB] using ih

/-- The `errors` projection of the handler is the failure filter of the
results vector. -/
theorem length_filterMap_errs (l : List (Except AppError User)) :
    (l.filterMap (fun r => match r with
        | .ok _ => none | .error e => some (errString e))).length
      = (l.filter (fun o => !okB o)).length := by
  induction l with
  | nil => rfl
  | cons a l ih =>
    cases a with
    | ok u => simpa [List.filterMap_cons, List.filter_cons, okB] using ih
    | error e => simpa [List.filterMap_cons, List.filter_cons, okB] using ih

/-- A Boolean filter and its negation partition a list's length. -/
theorem length_filter_add_not {α : Type} (p : α → Bool) (l : List α) :
    (l.filter p).length + (l.filter (fun a => !p a)).length = l.length := by
  induction l with
  | nil => rfl
  | cons a l ih =>
    cases hpa : p a <;> simp [List.filter_cons, hpa] <;> omega

/-- `validate_email` returns `ok` or the single Validation error. -/
theorem validate_email_cases (email : String) :
    validate_email email = .ok ()
    ∨ validate_email email = .error (.Validation "invalid email format") := by
  unfold validate_email
  dsimp only
  split
  · exact Or.inl rfl
  · exact Or.inr rfl

/-- `validate_password_policy` returns `ok` or one of its two Validation
errors. -/
theorem validate_password_policy_cases (pw : String) :
    validate_password_policy pw = .ok ()
    ∨ validate_password_policy pw = .error (.Validation "password too short (min 8)")
    ∨ validate_password_policy pw
        = .error (.Validation "password must include at least one letter and one number") := by
  unfold validate_password_policy
  by_cases h : pw.utf8ByteSize < 8
  · rw [if_pos h]
    exact Or.inr (Or.inl rfl)
  · rw [if_neg h]
    dsimp only
    split
    · exact Or.inl rfl
    · exact Or.inr (Or.inr rfl)

/-- Complete case analysis of one batch item on an arbitrary store: a valid
request either succeeds with the constructed user or hits the email
`Conflict`; an invalid request fails with a `Validation` error. The
in-memory `create` has no other failure. -/
theorem batchItem_cases (lower hashFn : String → String) (st : Store)
    (req : RegisterRequest) (uid : Nat) (t : Int) :
    (validRequest req = true
      ∧ (batchItem lower hashFn st req uid t
            = .ok ({ id := uid, email := lower req.email,
                     password_hash := hashFn req.password,
                     created_at := t, status := .Active },
                   hmInsert st
                     { id := uid, email := lower req.email,
                       password_hash := hashFn req.password,
                       created_at := t, status := .Active })
          ∨ batchItem lower hashFn st req uid t
              = .error (.Conflict "email already exists")))
    ∨ (validRequest req = false
        ∧ ∃ m, batchItem lower hashFn st req uid t = .error (.Validation m)) := by
  rcases validate_email_cases req.email with hve | hve
  · rcases validate_password_policy_cases req.password with hvp | hvp | hvp
    · left
      refine ⟨by unfold validRequest; rw [hve, hvp]; rfl, ?_⟩
      unfold batchItem
      rw [hve, except_bind_ok, hvp, except_bind_ok]
      unfold memCreate
      dsimp only
      split
      · exact Or.inr rfl
      · exact Or.inl rfl
    · right
      refine ⟨by unfold validRequest; rw [hve, hvp]; rfl,
        "password too short (min 8)", ?_⟩
      unfold batchItem
      rw [hve, except_bind_ok, hvp, except_bind_error]
    · right
      refine ⟨by unfold validRequest; rw [hve, hvp]; rfl,
        "password must include at least one letter and one number", ?_⟩
      unfold batchItem
      rw [hve, except_bind_ok, hvp, except_bind_error]
  · right
    refine ⟨by unfold validRequest; rw [hve]; rfl, "invalid email format", ?_⟩
    unfold batchItem
    rw [hve, except_bind_error]

/-- Unconditional content of the results vector: every success carries the
user built from its own request (lowered email, hashed secret, status
Active), and every failure is a validation error of its own request or the
email `Conflict`. -/
theorem runBatchAux_content (lower hashFn : String → String) (t : Int) :
    ∀ (reqs : List RegisterRequest) (st : Store) (i0 : Nat),
    List.Forall₂ (fun out req =>
        (∀ u, out = Except.ok u →
          u.email = lower req.email ∧ u.password_hash = hashFn req.password
          ∧ u.status = UserStatus.Active)
        ∧ (∀ e, out = Except.error e →
          validRequest req = false ∨ e = AppError.Conflict "email already exists"))
      (runBatchAux lower hashFn t st i0 reqs).1 reqs := by
  intro reqs
  induction reqs with
  | nil =>
    intro st i0
    simp only [runBatchAux]
    exact List.Forall₂.nil
  | cons req rest ih =>
    intro st i0
    rcases batchItem_cases lower hashFn st req i0 t with ⟨hv, hok | hconf⟩ | ⟨hv, m, herr⟩
    · simp only [runBatchAux, hok]
      refine List.Forall₂.cons ⟨?_, ?_⟩ (ih _ _)
      · intro u hu
        obtain rfl := Except.ok.inj hu
        exact ⟨rfl, rfl, rfl⟩
      · intro e he
        exact Except.noConfusion he
    · simp only [runBatchAux, hconf]
      refine List.Forall₂.cons ⟨?_, ?_⟩ (ih _ _)
      · intro u hu
        exact Except.noConfusion hu
      · intro e he
        exact Or.inr (Except.error.inj he).symm
    · simp only [runBatchAux, herr]
      refine List.Forall₂.cons ⟨?_, ?_⟩ (ih _ _)
      · intro u hu
        exact Except.noConfusion hu
      · intro e _
        exact Or.inl hv

/-- Unconditional position alignment: outcome `i` of the results vector is
exactly the registration of request `i` (with the `i`-th fresh uuid) run
against the store state left by the first `i` items. -/
theorem runBatchAux_get (lower hashFn : String → String) (t : Int) :
    ∀ (reqs : List RegisterRequest) (st : Store) (i0 i : Nat) (req : RegisterRequest),
    reqs.get? i = some req →
    (runBatchAux lower hashFn t st i0 reqs).1.get? i
      = some (Except.map Prod.fst
          (batchItem lower hashFn (runBatchAux lower hashFn t st i0 (reqs.take i)).2
            req (i0 + i) t)) := by
  intro reqs
  induction reqs with
  | nil =>
    intro st i0 i req h
    simp at h
  | cons r rest ih =>
    intro st i0 i req h
    cases i with
    | zero =>
      simp only [List.get?_cons_zero, Option.some.injEq] at h
      subst h
      cases hbi : batchItem lower hashFn st r i0 t with
      | ok p =>
        obtain ⟨u, st2⟩ := p
        simp only [runBatchAux, hbi, List.take_zero, List.get?_cons_zero,
          Nat.add_zero, Except.map]
      | error e =>
        simp only [runBatchAux, hbi, List.take_zero, List.get?_cons_zero,
          Nat.add_zero, Except.map]
    | succ j =>
      simp only [List.get?_cons_succ] at h
      cases hbi : batchItem lower hashFn st r i0 t with
      | ok p =>
        obtain ⟨u, st2⟩ := p
        have hj := ih st2 (i0 + 1) j req h
        have harith : i0 + 1 + j = i0 + (j + 1) := by omega
        rw [harith] at hj
        simp only [runBatchAux, hbi, List.get?_cons_succ, List.take_succ_cons]
        exact hj
      | error e =>
        have hj := ih st (i0 + 1) j req h
        have harith : i0 + 1 + j = i0 + (j + 1) := by omega
        rw [harith] at hj
        simp only [runBatchAux, hbi, List.get?_cons_succ, List.take_succ_cons]
        exact hj

/-- Claim C3: for every input list of registration requests and every store
state — no matter which items fail by validation or by email conflict — the
batch produces exactly N outcomes, one per input item in input order:
outcome i is precisely the registration of request i run at its turn, each
success carries the user built from its own request, each failure is its
own request's validation error or the store's Conflict, and the handler's
created/errors split carries exactly the K failures and N-K successes,
dropping and duplicating nothing; a concrete batch whose second item
conflicts with the first is evaluated in full. -/
theorem c3_batch_outcomes (lower hashFn : String → String) (t : Int)
    (reqs : List RegisterRequest) (st : Store) :
    (runBatchAux lower hashFn t st 0 reqs).1.length = reqs.length
    ∧ (∀ i req, reqs.get? i = some req →
        (runBatchAux lower hashFn t st 0 reqs).1.get? i
          = some (Except.map Prod.fst
              (batchItem lower hashFn
                (runBatchAux lower hashFn t st 0 (reqs.take i)).2 req i t)))
    ∧ List.Forall₂ (fun out req =>
        (∀ u, out = Except.ok u →
          u.email = lower req.email ∧ u.password_hash = hashFn req.password
          ∧ u.status = UserStatus.Active)
        ∧ (∀ e, out = Except.error e →
          validRequest req = false ∨ e = AppError.Conflict "email already exists"))
        (runBatchAux lower hashFn t st 0 reqs).1 reqs
    ∧ (batch_create_users lower hashFn st reqs t).1.length
        = ((runBatchAux lower hashFn t st 0 reqs).1.filter okB).length
    ∧ (batch_create_users lower hashFn st reqs t).2.1.length
        = ((runBatchAux lower hashFn t st 0 reqs).1.filter (fun o => !okB o)).length
    ∧ (batch_create_users lower hashFn st reqs t).1.length
        + (batch_create_users lower hashFn st reqs t).2.1.length = reqs.length
    ∧ (runBatchAux asciiLowerString (fun s => s) 0 [] 0 [wreq1, wreqDup]).1
        = [Except.ok { id := 0, email := "a@b.com", password_hash := "Password1",
                       created_at := 0, status := .Active },
           Except.error (.Conflict "email already exists")]
    ∧ (batch_create_users asciiLowerString (fun s => s) [] [wreq1, wreqDup] 0).1.length = 1
    ∧ (batch_create_users asciiLowerString (fun s => s) [] [wreq1, wreqDup] 0).2.1.length = 1 := by
  have hcontent := runBatchAux_content lower hashFn t reqs st 0
  have hlen := List.Forall₂.length_eq hcontent
  refine ⟨hlen, ?_, hcontent, ?_, ?_, ?_, by decide, by decide, by decide⟩
  · intro i req h
    have hg := runBatchAux_get lower hashFn t reqs st 0 i req h
    simpa using hg
  · simp only [batch_create_users]
    rw [length_filterMap_created]
  · simp only [batch_create_users]
    rw [length_filterMap_errs]
  · simp only [batch_create_users]
    rw [length_filterMap_created, length_filterMap_errs, length_filter_add_not okB]
    exact hlen

/-- Witness for C3: on the concrete conflicting batch, outcome 1 (the
conflicting item) is exactly the registration of request 1 against the
state left by item 0, and the batch has one outcome per input item. -/
theorem c3_batch_outcomes_witness :
    (runBatchAux asciiLowerString (fun s => s) 0 [] 0 [wreq1, wreqDup]).1.get? 1
      = some (Except.map Prod.fst
          (batchItem asciiLowerString (fun s => s)
            (runBatchAux asciiLowerString (fun s => s) 0 [] 0
              ([wreq1, wreqDup].take 1)).2
            wreqDup 1 0))
    ∧ (runBatchAux asciiLowerString (fun s => s) 0 [] 0 [wreq1, wreqDup]).1.length
        = ([wreq1, wreqDup] : List RegisterRequest).length := by
  constructor
  · exact (c3_batch_outcomes asciiLowerString (fun s => s) 0 [wreq1, wreqDup] []).2.1
      1 wreqDup (by decide)
  · exact (c3_batch_outcomes asciiLowerString (fun s => s) 0 [wreq1, wreqDup] []).1

end WebServer04
